import Mathlib

/-!
# Verification of the srt-translator Batch Translation Orchestration Engine

Shallow embedding of the core operations of the srt-translator repository:
the batch composer (`createBatches`), the response validator
(`processAIResponse` / `processResponseContent`), the per-batch error
handling of `translateTexts`, the result reassembly under concurrency,
the glossary merge, and the cache services.  Each definition is translated
from the TypeScript source file named in its doc comment.
-/

namespace SrtTranslator

/-- Total character length of a batch, as accumulated by
`createBatches` in `src/services/translationService.ts` (the running
`currentBatchLength`). -/
def sumLen (b : List String) : Nat :=
  (b.map String.length).sum

/-- Loop body of `createBatches`
(`src/services/translationService.ts`, lines 898-922): the arguments are
the remaining `texts`, the running `currentBatch` and the running
`currentBatchLength`; the trailing `if` is the final
`if (currentBatch.length > 0) batches.push(currentBatch)`. -/
def createBatchesGo (maxBatchLength : Nat) :
    List String → List String → Nat → List (List String)
  | [], currentBatch, _ =>
      if currentBatch.length > 0 then [currentBatch] else []
  | text :: texts, currentBatch, currentBatchLength =>
      if currentBatch.length = 0 ∨
          currentBatchLength + text.length ≤ maxBatchLength then
        createBatchesGo maxBatchLength texts (currentBatch ++ [text])
          (currentBatchLength + text.length)
      else
        currentBatch ::
          createBatchesGo maxBatchLength texts [text] text.length

/-- Model of `createBatches(texts, maxBatchLength)` from
`src/services/translationService.ts`, lines 898-922 (identical code in
`src/unnamed/part_009`, lines 218-245): greedily accumulate texts into a
batch while the running character total stays within `maxBatchLength`,
always admitting a text into an empty batch. -/
def createBatches (texts : List String) (maxBatchLength : Nat) :
    List (List String) :=
  createBatchesGo maxBatchLength texts [] 0

/-- The concatenation of the batches produced by the loop is the running
batch followed by the remaining input. -/
theorem createBatchesGo_flatten (maxBatchLength : Nat) :
    ∀ (texts currentBatch : List String) (currentBatchLength : Nat),
      (createBatchesGo maxBatchLength texts currentBatch
        currentBatchLength).flatten = currentBatch ++ texts := by
  intro texts
  induction texts with
  | nil =>
      intro cur len
      cases cur with
      | nil => simp [createBatchesGo]
      | cons c cs => simp [createBatchesGo]
  | cons t ts ih =>
      intro cur len
      by_cases h : cur.length = 0 ∨ len + t.length ≤ maxBatchLength
      · simp only [createBatchesGo, if_pos h]
        simp [ih]
      · simp only [createBatchesGo, if_neg h]
        simp [ih]

/-- A batch is sound when it is non-empty and is either within the length
bound or a single oversized text. -/
def BatchSound (maxBatchLength : Nat) (b : List String) : Prop :=
  b ≠ [] ∧ (sumLen b ≤ maxBatchLength ∨
    ∃ t, b = [t] ∧ maxBatchLength < t.length)

theorem sumLen_append (a b : List String) :
    sumLen (a ++ b) = sumLen a + sumLen b := by
  simp [sumLen]

theorem sumLen_singleton (t : String) : sumLen [t] = t.length := by
  simp [sumLen]

/-- Every batch emitted by the loop is sound, provided the running batch
is empty-or-sound and the running length is its true length. -/
theorem createBatchesGo_sound (maxBatchLength : Nat) :
    ∀ (texts currentBatch : List String) (currentBatchLength : Nat),
      currentBatchLength = sumLen currentBatch →
      (currentBatch ≠ [] → BatchSound maxBatchLength currentBatch) →
      ∀ b ∈ createBatchesGo maxBatchLength texts currentBatch
          currentBatchLength, BatchSound maxBatchLength b := by
  intro texts
  induction texts with
  | nil =>
      intro cur len hlen hsound b hb
      by_cases h : cur.length > 0
      · simp only [createBatchesGo, if_pos h, List.mem_singleton] at hb
        subst hb
        exact hsound (by simpa [List.length_pos] using h)
      · simp [createBatchesGo, h] at hb
  | cons t ts ih =>
      intro cur len hlen hsound b hb
      by_cases h : cur.length = 0 ∨ len + t.length ≤ maxBatchLength
      · simp only [createBatchesGo, if_pos h] at hb
        refine ih (cur ++ [t]) (len + t.length) ?_ ?_ b hb
        · simp [hlen, sumLen_append, sumLen_singleton]
        · intro _
          rcases h with h | h
          · have hc : cur = [] := List.length_eq_zero.mp h
            subst hc
            refine ⟨by simp, ?_⟩
            rcases le_or_lt t.length maxBatchLength with ht | ht
            · exact Or.inl (by simpa [sumLen_singleton] using ht)
            · exact Or.inr ⟨t, by simp, ht⟩
          · refine ⟨by simp, Or.inl ?_⟩
            simpa [sumLen_append, sumLen_singleton, hlen] using h
      · simp only [createBatchesGo, if_neg h, List.mem_cons] at hb
        push_neg at h
        obtain ⟨hc, _⟩ := h
        rcases hb with hb | hb
        · subst hb
          exact hsound (by simpa [← List.length_eq_zero] using hc)
        · refine ih [t] t.length (by simp [sumLen_singleton]) ?_ b hb
          intro _
          refine ⟨by simp, ?_⟩
          rcases le_or_lt t.length maxBatchLength with ht | ht
          · exact Or.inl (by simpa [sumLen_singleton] using ht)
          · exact Or.inr ⟨t, rfl, ht⟩

/-- C1: For every list of input texts and every `maxLength ≥ 1`, the
batches returned by `createBatches` concatenate back to exactly the input
list: no loss, no duplication, no reordering. -/
theorem createBatches_flatten_eq (texts : List String)
    (maxBatchLength : Nat) (hmax : 1 ≤ maxBatchLength) :
    (createBatches texts maxBatchLength).flatten = texts := by
  have := createBatchesGo_flatten maxBatchLength texts [] 0
  simpa [createBatches] using this

/-- C1 witness: a concrete evaluation of the batch-completeness theorem. -/
theorem createBatches_flatten_eq_witness :
    (createBatches ["Hello", "World", "Bonjour"] 100).flatten =
      ["Hello", "World", "Bonjour"] :=
  createBatches_flatten_eq ["Hello", "World", "Bonjour"] 100 (by decide)

/-- C4: every batch produced by `createBatches` is non-empty, and either
its cumulative character length is within `maxBatchLength` or it is a
single text whose own length exceeds `maxBatchLength`; in particular any
oversized text always sits alone in its batch. -/
theorem createBatches_batch_bound (texts : List String)
    (maxBatchLength : Nat) (hmax : 1 ≤ maxBatchLength) :
    ∀ b ∈ createBatches texts maxBatchLength,
      b ≠ [] ∧
      (sumLen b ≤ maxBatchLength ∨
        ∃ t, b = [t] ∧ maxBatchLength < t.length) ∧
      (∀ t ∈ b, maxBatchLength < t.length → b = [t]) := by
  intro b hb
  have hsound : BatchSound maxBatchLength b :=
    createBatchesGo_sound maxBatchLength texts [] 0 (by simp [sumLen])
      (by intro h; exact absurd rfl h) b hb
  obtain ⟨hne, hbound⟩ := hsound
  refine ⟨hne, hbound, ?_⟩
  intro t ht hover
  rcases hbound with hle | ⟨u, hu, _⟩
  · exfalso
    have : t.length ≤ sumLen b :=
      List.single_le_sum (fun x _ => Nat.zero_le x) _
        (List.mem_map_of_mem String.length ht)
    omega
  · subst hu
    simp only [List.mem_singleton] at ht
    subst ht
    rfl

/-- C4 witness: with `maxLength = 5`, the oversized text `"LongOversized"`
is emitted alone, and each batch satisfies the bound condition. -/
theorem createBatches_batch_bound_witness :
    ["LongOversized"] ∈ createBatches ["ab", "cd", "LongOversized", "e"] 5 ∧
    ∀ b ∈ createBatches ["ab", "cd", "LongOversized", "e"] 5,
      b ≠ [] ∧
      (sumLen b ≤ 5 ∨ ∃ t, b = [t] ∧ 5 < t.length) ∧
      (∀ t ∈ b, 5 < t.length → b = [t]) := by
  refine ⟨by decide, ?_⟩
  exact createBatches_batch_bound ["ab", "cd", "LongOversized", "e"] 5
    (by decide)

/-! ## Response Validator

Embedding of `processAIResponse` and `processResponseContent` from
`src/services/translationService.ts` (lines 569-701 and 524-556).  The
provider response is represented by the cleaned content string together
with the outcome of `JSON.parse` on it (`none` when parsing throws); the
probing pipeline after the parse is translated branch by branch. -/

/-- A parsed JSON value as produced by `JSON.parse`: object fields are
kept in insertion order and, as `JSON.parse` guarantees, have unique
keys. -/
inductive Json where
  | str (s : String)
  | num (n : Int)
  | bool (b : Bool)
  | null
  | arr (elements : List Json)
  | obj (fields : List (String × Json))

/-- The own enumerable string-keyed entries of a JavaScript value, as
visited by `for (const key in parsedContent)` and `Object.keys`: an
object yields its fields, an array its indexed elements, a string its
indexed characters, and primitives nothing. -/
def jsEntries : Json → List (String × Json)
  | Json.obj fields => fields
  | Json.arr xs => xs.enum.map fun e => (toString e.1, e.2)
  | Json.str s => s.toList.enum.map fun e => (toString e.1, Json.str (toString e.2))
  | _ => []

/-- JavaScript property lookup `value[key]` on a non-null value
(`undefined` is `none`). -/
def jsGet (v : Json) (key : String) : Option Json :=
  ((jsEntries v).find? fun e => e.1 == key).map (·.2)

/-- Models the JavaScript test `!isNaN(Number(key))` applied by
`processAIResponse` to candidate keys, for plain decimal key strings:
optional sign, digits, at most one decimal point; the whitespace-only
string coerces to `0` and counts as numeric. -/
def jsIsNumericKey (s : String) : Bool :=
  let t := s.trim
  if t = "" then true
  else
    let body :=
      match t.toList with
      | '+' :: cs => cs
      | '-' :: cs => cs
      | cs => cs
    match body.span Char.isDigit with
    | (ds, []) => !ds.isEmpty
    | (ds, '.' :: rest) =>
        (!ds.isEmpty || !rest.isEmpty) && rest.all Char.isDigit
    | _ => false

/-- The data carried by each `throw new Error(...)` site of
`processAIResponse` and `processResponseContent`: the numbers and the
content excerpt interpolated into the message, and nothing else.
`jsTypeError` is the TypeError raised by property access when
`JSON.parse` returned `null`. -/
inductive RespError where
  | jsTypeError
  | lineCountMismatch (expected actual : Nat)
  | invalidJson (excerpt : String)
  | keyLengthMismatch (key : String) (expected actual : Nat)
  | altKeyLengthMismatch (key : String) (expected actual : Nat)
  | arrayLengthMismatch (expected actual : Nat)
  | numericKeyLengthMismatch (expected actual : Nat)
  | noMatchingLength (expected : Nat)
  | countMismatch (expected actual : Nat)
  deriving DecidableEq

/-- The expected count interpolated into the error message, when the
message carries one. -/
def RespError.expectedCount : RespError → Option Nat
  | .jsTypeError => none
  | .lineCountMismatch e _ => some e
  | .invalidJson _ => none
  | .keyLengthMismatch _ e _ => some e
  | .altKeyLengthMismatch _ e _ => some e
  | .arrayLengthMismatch e _ => some e
  | .numericKeyLengthMismatch e _ => some e
  | .noMatchingLength e => some e
  | .countMismatch e _ => some e

/-- The actual count interpolated into the error message, when the
message carries one. -/
def RespError.actualCount : RespError → Option Nat
  | .jsTypeError => none
  | .lineCountMismatch _ a => some a
  | .invalidJson _ => none
  | .keyLengthMismatch _ _ a => some a
  | .altKeyLengthMismatch _ _ a => some a
  | .arrayLengthMismatch _ a => some a
  | .numericKeyLengthMismatch _ a => some a
  | .noMatchingLength _ => none
  | .countMismatch _ a => some a

/-- The response-content excerpt interpolated into the error message,
when the message carries one (only the invalid-JSON error does). -/
def RespError.contentExcerpt : RespError → Option String
  | .invalidJson excerpt => some excerpt
  | _ => none

/-- The `options` argument of `processAIResponse`. -/
structure ProcessOptions where
  expectedArrayKey : String
  alternativeArrayKeys : List String
  fallbackData : List String
  strictLengthCheck : Bool

/-- The loop over `options.alternativeArrayKeys`
(`src/services/translationService.ts`, lines 623-635): the first key
whose field exists and is an array decides, throwing on a strict length
mismatch. -/
def probeAlternativeKeys (parsedContent : Json) (strict : Bool) (k : Nat) :
    List String → Option (Except RespError (List Json))
  | [] => none
  | key :: keys =>
      match jsGet parsedContent key with
      | some (Json.arr xs) =>
          if strict ∧ xs.length ≠ k then
            some (Except.error (RespError.altKeyLengthMismatch key k xs.length))
          else some (Except.ok xs)
      | _ => probeAlternativeKeys parsedContent strict k keys

/-- The `for (const key in parsedContent)` loop
(`src/services/translationService.ts`, lines 651-665): return the first
array-valued property whose length matches (any array when the expected
count is zero), skipping mismatches. -/
def probeAnyArrayField (strict : Bool) (k : Nat) :
    List (String × Json) → Option (List Json)
  | [] => none
  | (_, Json.arr xs) :: fields =>
      if strict ∧ xs.length ≠ k then probeAnyArrayField strict k fields
      else if k = 0 ∨ xs.length = k then some xs
      else probeAnyArrayField strict k fields
  | _ :: fields => probeAnyArrayField strict k fields

/-- The final fallback (`src/services/translationService.ts`, lines
682-700): under strict length checking throw; otherwise return the
original fallback data. -/
def processFinalFallback (strict : Bool) (k : Nat)
    (fallbackData : List String) : Except RespError (List Json) :=
  if strict then Except.error (RespError.noMatchingLength k)
  else Except.ok (fallbackData.map Json.str)

/-- The numeric-index-object probe
(`src/services/translationService.ts`, lines 667-680) followed by the
final fallback. -/
def probeNumericKeys (parsedContent : Json) (strict : Bool) (k : Nat)
    (fallbackData : List String) : Except RespError (List Json) :=
  let numericKeys := (jsEntries parsedContent).filter fun e => jsIsNumericKey e.1
  if numericKeys.length > 0 then
    if strict ∧ numericKeys.length ≠ k then
      Except.error (RespError.numericKeyLengthMismatch k numericKeys.length)
    else if numericKeys.length = k then
      Except.ok (numericKeys.map (·.2))
    else processFinalFallback strict k fallbackData
  else processFinalFallback strict k fallbackData

/-- Probes that run after the expected key, the alternative keys and the
bare-array check: any array-valued property, then numeric keys, then the
final fallback. -/
def probeRemaining (parsedContent : Json) (strict : Bool) (k : Nat)
    (fallbackData : List String) : Except RespError (List Json) :=
  match probeAnyArrayField strict k (jsEntries parsedContent) with
  | some xs => Except.ok xs
  | none => probeNumericKeys parsedContent strict k fallbackData

/-- Models the JavaScript `content.split("\\n")` used by the non-JSON
fallback of `processAIResponse`, by structural recursion over the
characters. -/
def jsSplitNewlineChars : List Char → List (List Char)
  | [] => [[]]
  | c :: cs =>
      let rest := jsSplitNewlineChars cs
      if c = '\n' then [] :: rest
      else
        match rest with
        | [] => [[c]]
        | l :: ls => (c :: l) :: ls

/-- Model of `content.split("\\n")` as a list of strings. -/
def jsSplitNewline (s : String) : List String :=
  (jsSplitNewlineChars s.toList).map fun l => String.mk l

/-- Models JavaScript `line.trim()`: strip leading and trailing
whitespace. -/
def jsTrim (s : String) : String :=
  String.mk
    (((s.toList.dropWhile Char.isWhitespace).reverse.dropWhile
      Char.isWhitespace).reverse)

/-- Models `cleanedContent.substring(0, 100)`, the excerpt interpolated
into the invalid-JSON error message. -/
def jsExcerpt (s : String) : String :=
  String.mk (s.toList.take 100)

/-- Model of `processAIResponse(content, options)` from
`src/services/translationService.ts`, lines 569-701, after
`cleanJsonContent`: `parsed` is the outcome of `JSON.parse` on
`cleanedContent` (`none` when the parse throws, in which case the
per-line fallback runs); then the ordered probe chain with strict length
checks.  Every `Except.error` is a `throw` site of the source. -/
def processAIResponse (cleanedContent : String) (parsed : Option Json)
    (options : ProcessOptions) : Except RespError (List Json) :=
  let k := options.fallbackData.length
  match parsed with
  | none =>
      if cleanedContent.toList.contains '\n' then
        let lines := (jsSplitNewline cleanedContent).filter fun l =>
          !(jsTrim l).isEmpty
        if options.strictLengthCheck ∧ lines.length ≠ k then
          Except.error (RespError.lineCountMismatch k lines.length)
        else if lines.length = k then Except.ok (lines.map Json.str)
        else Except.error (RespError.invalidJson (jsExcerpt cleanedContent))
      else Except.error (RespError.invalidJson (jsExcerpt cleanedContent))
  | some Json.null => Except.error RespError.jsTypeError
  | some parsedContent =>
      match jsGet parsedContent options.expectedArrayKey with
      | some (Json.arr xs) =>
          if options.strictLengthCheck ∧ xs.length ≠ k then
            Except.error
              (RespError.keyLengthMismatch options.expectedArrayKey k xs.length)
          else Except.ok xs
      | _ =>
          match probeAlternativeKeys parsedContent options.strictLengthCheck k
              options.alternativeArrayKeys with
          | some r => r
          | none =>
              match parsedContent with
              | Json.arr xs =>
                  if options.strictLengthCheck ∧ xs.length ≠ k then
                    Except.error (RespError.arrayLengthMismatch k xs.length)
                  else if k = 0 ∨ xs.length = k then Except.ok xs
                  else
                    probeRemaining parsedContent options.strictLengthCheck k
                      options.fallbackData
              | _ =>
                  probeRemaining parsedContent options.strictLengthCheck k
                    options.fallbackData

/-- The options `processResponseContent` passes to `processAIResponse`
(`src/services/translationService.ts`, lines 527-532): expected key
`"translations"`, alternative key `"terms"`, the original batch as
fallback data, strict length checking on. -/
def translationProcessOptions (batch : List String) : ProcessOptions :=
  { expectedArrayKey := "translations"
    alternativeArrayKeys := ["terms"]
    fallbackData := batch
    strictLengthCheck := true }

/-- Model of `processResponseContent(content, batch)` from
`src/services/translationService.ts`, lines 524-556: run the strict
pipeline, re-check the count defensively, and on any caught error return
the original batch unchanged. -/
def processResponseContent (cleanedContent : String) (parsed : Option Json)
    (batch : List String) : List Json :=
  match processAIResponse cleanedContent parsed
      (translationProcessOptions batch) with
  | Except.error _ => batch.map Json.str
  | Except.ok result =>
      if result.length ≠ batch.length then batch.map Json.str else result

theorem probeAlternativeKeys_ok_length (p : Json) (k : Nat) :
    ∀ (keys : List String) (xs : List Json),
      probeAlternativeKeys p true k keys = some (Except.ok xs) →
      xs.length = k := by
  intro keys
  induction keys with
  | nil => intro xs h; simp [probeAlternativeKeys] at h
  | cons key keys ih =>
      intro xs h
      simp only [probeAlternativeKeys] at h
      split at h
      · next ys hys =>
          split_ifs at h with hlen
          · simp at h
          · simp only [Option.some.injEq, Except.ok.injEq] at h
            subst h
            simpa using hlen
      · exact ih xs h

theorem probeAlternativeKeys_error_expected (p : Json) (k : Nat) :
    ∀ (keys : List String) (e : RespError),
      probeAlternativeKeys p true k keys = some (Except.error e) →
      e.expectedCount = some k := by
  intro keys
  induction keys with
  | nil => intro e h; simp [probeAlternativeKeys] at h
  | cons key keys ih =>
      intro e h
      simp only [probeAlternativeKeys] at h
      split at h
      · next ys hys =>
          split_ifs at h with hlen
          · simp only [Option.some.injEq, Except.error.injEq] at h
            subst h
            rfl
          · simp at h
      · exact ih e h

theorem probeAnyArrayField_some_length (k : Nat) :
    ∀ (fields : List (String × Json)) (xs : List Json),
      probeAnyArrayField true k fields = some xs → xs.length = k := by
  intro fields
  induction fields with
  | nil => intro xs h; simp [probeAnyArrayField] at h
  | cons f fields ih =>
      intro xs h
      match f with
      | (key, Json.arr ys) =>
          simp only [probeAnyArrayField] at h
          split_ifs at h with h1 h2
          · exact ih xs h
          · simp only [Option.some.injEq] at h
            subst h
            simpa using h1
          · exact ih xs h
      | (key, Json.str s) => exact ih xs h
      | (key, Json.num n) => exact ih xs h
      | (key, Json.bool b) => exact ih xs h
      | (key, Json.null) => exact ih xs h
      | (key, Json.obj fs) => exact ih xs h

theorem probeNumericKeys_ok_length (p : Json) (k : Nat)
    (fallbackData : List String) (xs : List Json)
    (h : probeNumericKeys p true k fallbackData = Except.ok xs) :
    xs.length = k := by
  simp only [probeNumericKeys, true_and, gt_iff_lt] at h
  split_ifs at h
  all_goals
    first
    | exact Except.noConfusion h
    | (simp only [processFinalFallback] at h
       simp at h)
    | (injection h with h
       rw [← h, List.length_map]
       simp_all)

theorem probeNumericKeys_error_expected (p : Json) (k : Nat)
    (fallbackData : List String) (e : RespError)
    (h : probeNumericKeys p true k fallbackData = Except.error e) :
    e.expectedCount = some k := by
  simp only [probeNumericKeys, true_and, gt_iff_lt] at h
  split_ifs at h
  all_goals
    first
    | exact Except.noConfusion h
    | (injection h with h
       rw [← h]
       rfl)
    | (simp only [processFinalFallback] at h
       simp at h
       rw [← h]
       rfl)
    | (simp only [processFinalFallback] at h
       simp at h
       rw [h]
       rfl)

theorem probeRemaining_ok_length (p : Json) (k : Nat)
    (fallbackData : List String) (xs : List Json)
    (h : probeRemaining p true k fallbackData = Except.ok xs) :
    xs.length = k := by
  simp only [probeRemaining] at h
  split at h
  · next ys hys =>
      injection h with h
      rw [← h]
      exact probeAnyArrayField_some_length k _ _ hys
  · exact probeNumericKeys_ok_length p k fallbackData xs h

theorem probeRemaining_error_expected (p : Json) (k : Nat)
    (fallbackData : List String) (e : RespError)
    (h : probeRemaining p true k fallbackData = Except.error e) :
    e.expectedCount = some k := by
  simp only [probeRemaining] at h
  split at h
  · exact Except.noConfusion h
  · exact probeNumericKeys_error_expected p k fallbackData e h

/-- With strict length checking on, a successful `processAIResponse`
always returns exactly as many elements as the fallback data. -/
theorem processAIResponse_strict_ok_length (cleanedContent : String)
    (parsed : Option Json) (options : ProcessOptions)
    (hstrict : options.strictLengthCheck = true) (result : List Json)
    (h : processAIResponse cleanedContent parsed options = Except.ok result) :
    result.length = options.fallbackData.length := by
  simp only [processAIResponse, hstrict, true_and] at h
  split at h
  · split_ifs at h
    all_goals
      first
      | exact Except.noConfusion h
      | (injection h with h
         rw [← h, List.length_map]
         simp_all)
  · exact Except.noConfusion h
  · split at h
    · split_ifs at h
      all_goals
        first
        | exact Except.noConfusion h
        | (injection h with h
           rw [← h]
           simp_all)
    · split at h
      · next r hr =>
          cases r with
          | ok ys =>
              injection h with h
              rw [← h]
              exact probeAlternativeKeys_ok_length _ _ _ _ hr
          | error e2 => exact Except.noConfusion h
      · split at h
        · split_ifs at h
          all_goals
            first
            | exact Except.noConfusion h
            | exact probeRemaining_ok_length _ _ _ _ h
            | (injection h with h
               rw [← h]
               simp_all)
        · exact probeRemaining_ok_length _ _ _ _ h

/-- With strict length checking on, every error produced by
`processAIResponse` carries the expected count, or is the invalid-JSON
error carrying the 100-character content excerpt, or is the TypeError
raised by property access on a parsed `null`. -/
theorem processAIResponse_strict_error_payload (cleanedContent : String)
    (parsed : Option Json) (options : ProcessOptions)
    (hstrict : options.strictLengthCheck = true) (e : RespError)
    (h : processAIResponse cleanedContent parsed options = Except.error e) :
    e.expectedCount = some options.fallbackData.length ∨
    e.contentExcerpt = some (jsExcerpt cleanedContent) ∨
    e = RespError.jsTypeError := by
  simp only [processAIResponse, hstrict, true_and] at h
  split at h
  · split_ifs at h
    all_goals
      first
      | exact Except.noConfusion h
      | (injection h with h
         rw [← h]
         first
         | exact Or.inl rfl
         | exact Or.inr (Or.inl rfl)
         | exact Or.inr (Or.inr rfl))
  · injection h with h
    rw [← h]
    exact Or.inr (Or.inr rfl)
  · split at h
    · split_ifs at h
      all_goals
        first
        | exact Except.noConfusion h
        | (injection h with h
           rw [← h]
           exact Or.inl rfl)
    · split at h
      · next r hr =>
          cases r with
          | ok ys => exact Except.noConfusion h
          | error e2 =>
              injection h with h
              rw [← h]
              exact Or.inl (probeAlternativeKeys_error_expected _ _ _ _ hr)
      · split at h
        · split_ifs at h
          all_goals
            first
            | exact Except.noConfusion h
            | exact Or.inl (probeRemaining_error_expected _ _ _ _ h)
            | (injection h with h
               rw [← h]
               exact Or.inl rfl)
        · exact Or.inl (probeRemaining_error_expected _ _ _ _ h)

/-- The function `processResponseContent` hands back exactly one value per batch
element, whichever branch is taken. -/
theorem processResponseContent_length (cleanedContent : String)
    (parsed : Option Json) (batch : List String) :
    (processResponseContent cleanedContent parsed batch).length =
      batch.length := by
  unfold processResponseContent
  split
  · simp
  · next result _ =>
      split_ifs with h
      · simp
      · omega

/-- On any caught error of the strict pipeline, `processResponseContent`
returns the original batch unchanged. -/
theorem processResponseContent_of_error (cleanedContent : String)
    (parsed : Option Json) (batch : List String) (e : RespError)
    (h : processAIResponse cleanedContent parsed
        (translationProcessOptions batch) = Except.error e) :
    processResponseContent cleanedContent parsed batch =
      batch.map Json.str := by
  unfold processResponseContent
  rw [h]

/-- C2: for every batch of size `k` and every provider response content,
validation either returns exactly `k` values or fails: the strict
pipeline never returns a wrong-length success, and
`processResponseContent` always hands back exactly `k` values. -/
theorem validate_count_preservation (cleanedContent : String)
    (parsed : Option Json) (batch : List String) :
    (∀ result,
      processAIResponse cleanedContent parsed
          (translationProcessOptions batch) = Except.ok result →
      result.length = batch.length) ∧
    (processResponseContent cleanedContent parsed batch).length =
      batch.length := by
  constructor
  · intro result h
    exact processAIResponse_strict_ok_length cleanedContent parsed
      (translationProcessOptions batch) rfl result h
  · exact processResponseContent_length cleanedContent parsed batch

/-- C2 witness: a well-formed two-element response for a two-element
batch is accepted with exactly two values. -/
theorem validate_count_preservation_witness :
    processAIResponse "\x7b\"translations\":[\"Bonjour\",\"Monde\"]\x7d"
        (some (Json.obj [("translations",
          Json.arr [Json.str "Bonjour", Json.str "Monde"])]))
        (translationProcessOptions ["Hello", "World"]) =
      Except.ok [Json.str "Bonjour", Json.str "Monde"] ∧
    ([Json.str "Bonjour", Json.str "Monde"] : List Json).length =
      (["Hello", "World"] : List String).length := by
  refine ⟨rfl, ?_⟩
  exact (validate_count_preservation
    "\x7b\"translations\":[\"Bonjour\",\"Monde\"]\x7d"
    (some (Json.obj [("translations",
      Json.arr [Json.str "Bonjour", Json.str "Monde"])]))
    ["Hello", "World"]).1 _ rfl

/-- C7 counterexample: for the response `{"translations":["a"]}` to a
two-element batch, strict validation does fail, but the error it fails
with carries the expected and actual counts and no content excerpt — so
the error does not carry the expected count, the actual count and a
content excerpt together, contrary to the claim (the excerpt is only
written to the console log at this throw site). -/
theorem validation_error_excerpt_counterexample :
    processAIResponse "\x7b\"translations\":[\"a\"]\x7d"
        (some (Json.obj [("translations", Json.arr [Json.str "a"])]))
        (translationProcessOptions ["Hello", "World"]) =
      Except.error (RespError.keyLengthMismatch "translations" 2 1) ∧
    RespError.contentExcerpt
      (RespError.keyLengthMismatch "translations" 2 1) = none :=
  ⟨rfl, rfl⟩

/-- C7 (amended): with strict length checking on, when no probed shape
matches the expected count, validation fails rather than returning a
value, and the error carries the expected count, or — for unparseable
content — the 100-character content excerpt without counts, or — when
the parsed content is JSON `null` — nothing; expected count, actual
count and excerpt are never all carried together. -/
theorem validation_error_payload (cleanedContent : String)
    (parsed : Option Json) (batch : List String) (e : RespError)
    (h : processAIResponse cleanedContent parsed
        (translationProcessOptions batch) = Except.error e) :
    e.expectedCount = some batch.length ∨
    e.contentExcerpt = some (jsExcerpt cleanedContent) ∨
    e = RespError.jsTypeError :=
  processAIResponse_strict_error_payload cleanedContent parsed
    (translationProcessOptions batch) rfl e h

/-- C7 amended-claim witness: a concrete strict failure whose error
carries the expected count. -/
theorem validation_error_payload_witness :
    (RespError.keyLengthMismatch "translations" 3 1).expectedCount =
        some (["a", "b", "c"] : List String).length ∨
    (RespError.keyLengthMismatch "translations" 3 1).contentExcerpt =
        some (jsExcerpt "\x7b\"translations\":[\"x\"]\x7d") ∨
    RespError.keyLengthMismatch "translations" 3 1 =
        RespError.jsTypeError :=
  validation_error_payload "\x7b\"translations\":[\"x\"]\x7d"
    (some (Json.obj [("translations", Json.arr [Json.str "x"])]))
    ["a", "b", "c"] (RespError.keyLengthMismatch "translations" 3 1) rfl

/-- C10 counterexample: when `JSON.parse` fails on a non-JSON response
whose nonempty lines number exactly the batch size, the caught parse
failure does not make `processResponseContent` return the original batch:
it returns the split lines instead. -/
theorem processResponseContent_lines_counterexample :
    processResponseContent "Bonjour\nMonde" none ["Hello", "World"] =
      [Json.str "Bonjour", Json.str "Monde"] ∧
    ¬ processResponseContent "Bonjour\nMonde" none ["Hello", "World"] =
      [Json.str "Hello", Json.str "World"] := by
  constructor
  · rfl
  · intro hcontra
    rw [show processResponseContent "Bonjour\nMonde" none
        ["Hello", "World"] = [Json.str "Bonjour", Json.str "Monde"]
        from rfl] at hcontra
    injection hcontra with h1 h2
    injection h1 with h1
    exact absurd h1 (by decide)

/-- C10 (amended): `processResponseContent` is total and always returns
exactly `batch.length` values; whenever the strict pipeline fails with a
caught error, the original batch is returned unchanged.  (When
`JSON.parse` fails but the non-JSON per-line fallback succeeds with
exactly `batch.length` nonempty lines, those lines are returned instead
of the original batch.) -/
theorem processResponseContent_total (cleanedContent : String)
    (parsed : Option Json) (batch : List String) :
    (processResponseContent cleanedContent parsed batch).length =
      batch.length ∧
    (∀ e, processAIResponse cleanedContent parsed
        (translationProcessOptions batch) = Except.error e →
      processResponseContent cleanedContent parsed batch =
        batch.map Json.str) :=
  ⟨processResponseContent_length cleanedContent parsed batch,
   fun e h => processResponseContent_of_error cleanedContent parsed batch e h⟩

/-- C10 amended-claim witness: unparseable content without newlines for a
one-element batch yields the original batch back. -/
theorem processResponseContent_total_witness :
    (processResponseContent "garbage" none ["Hello"]).length =
      (["Hello"] : List String).length ∧
    processResponseContent "garbage" none ["Hello"] =
      (["Hello"] : List String).map Json.str :=
  ⟨(processResponseContent_total "garbage" none ["Hello"]).1,
   (processResponseContent_total "garbage" none ["Hello"]).2
     (RespError.invalidJson "garbage") rfl⟩

/-! ## Result reassembly under concurrency

Embedding of the result collection of `translateTexts`
(`src/services/translationService.ts`, lines 150-225): each batch handler
produces `{ index: batchIndex, translations }`; the collected records are
sorted by `index` (`results.sort((a, b) => a.index - b.index)`) and
flattened (`results.flatMap((result) => result.translations)`).  The
unconstrained completion order of the concurrent workers is modelled by
letting the collected record list be an arbitrary permutation of the
index-tagged translations. -/

/-- Model of `results.sort((a, b) => a.index - b.index)`: a stable sort by batch
index, modelled by insertion sort (JavaScript `Array.prototype.sort` is
stable). -/
def sortResultsByIndex (results : List (Nat × List String)) :
    List (Nat × List String) :=
  List.insertionSort (fun a b => a.1 ≤ b.1) results

/-- Sorting by index followed by
`results.flatMap((result) => result.translations)`. -/
def reassembleResults (results : List (Nat × List String)) : List String :=
  ((sortResultsByIndex results).map Prod.snd).flatten

instance : IsTotal (Nat × List String) (fun a b => a.1 ≤ b.1) :=
  ⟨fun a b => Nat.le_total a.1 b.1⟩

instance : IsTrans (Nat × List String) (fun a b => a.1 ≤ b.1) :=
  ⟨fun _ _ _ => Nat.le_trans⟩

instance : IsAntisymm (Nat × List String) (fun a b => a.1 < b.1) :=
  ⟨fun _ _ h1 h2 => absurd h2 (Nat.lt_asymm h1)⟩

theorem enumFrom_fst_le {α : Type} :
    ∀ (n : Nat) (l : List α) (p : Nat × α),
      p ∈ List.enumFrom n l → n ≤ p.1 := by
  intro n l
  induction l generalizing n with
  | nil => intro p h; simp [List.enumFrom] at h
  | cons a l ih =>
      intro p h
      simp only [List.enumFrom, List.mem_cons] at h
      rcases h with h | h
      · subst h; exact Nat.le_refl n
      · exact Nat.le_trans (Nat.le_succ n) (ih (n + 1) p h)

theorem enumFrom_pairwise_fst_lt {α : Type} :
    ∀ (n : Nat) (l : List α),
      (List.enumFrom n l).Pairwise (fun a b => a.1 < b.1) := by
  intro n l
  induction l generalizing n with
  | nil => simp [List.enumFrom]
  | cons a l ih =>
      simp only [List.enumFrom]
      refine List.Pairwise.cons ?_ (ih (n + 1))
      intro p hp
      exact Nat.lt_of_lt_of_le (Nat.lt_succ_self n)
        (enumFrom_fst_le (n + 1) l p hp)

theorem enumFrom_map_snd {α : Type} :
    ∀ (n : Nat) (l : List α), (List.enumFrom n l).map Prod.snd = l := by
  intro n l
  induction l generalizing n with
  | nil => rfl
  | cons a l ih => simp [List.enumFrom, ih]

/-- Sorting any permutation of a list that is strictly sorted by index
recovers that list. -/
theorem sortResultsByIndex_of_perm (l results : List (Nat × List String))
    (hl : l.Pairwise (fun a b => a.1 < b.1)) (hp : results.Perm l) :
    sortResultsByIndex results = l := by
  have hperm : (sortResultsByIndex results).Perm l := by
    unfold sortResultsByIndex
    exact (List.perm_insertionSort _ results).trans hp
  have hsorted : (sortResultsByIndex results).Sorted fun a b => a.1 ≤ b.1 :=
    List.sorted_insertionSort (fun a b => a.1 ≤ b.1) results
  have hndl : (l.map Prod.fst).Nodup := by
    have : (l.map Prod.fst).Pairwise (fun a b => a ≠ b) := by
      rw [List.pairwise_map]
      exact hl.imp fun h => Nat.ne_of_lt h
    exact this
  have hnd : ((sortResultsByIndex results).map Prod.fst).Nodup :=
    ((hperm.map Prod.fst).nodup_iff).mpr hndl
  have hne : (sortResultsByIndex results).Pairwise fun a b => a.1 ≠ b.1 := by
    rw [← List.pairwise_map (f := Prod.fst)]
    exact hnd
  have hstrict : (sortResultsByIndex results).Sorted fun a b => a.1 < b.1 := by
    have := List.Pairwise.and hsorted hne
    exact this.imp fun h => Nat.lt_of_le_of_ne h.1 h.2
  exact List.eq_of_perm_of_sorted hperm hstrict hl

/-- C3: whatever order the concurrent workers complete the batches in —
any permutation of the index-tagged per-batch results — sorting by batch
index and flattening reproduces the translations in original batch
order, so output position `i` always corresponds to input position `i`. -/
theorem translateTexts_order_preserved (batches : List (List String))
    (tr : List String → List String) (results : List (Nat × List String))
    (hp : results.Perm (List.enum (batches.map tr))) :
    reassembleResults results = (batches.map tr).flatten := by
  unfold reassembleResults
  rw [sortResultsByIndex_of_perm (List.enum (batches.map tr)) results
    (enumFrom_pairwise_fst_lt 0 (batches.map tr)) hp]
  rw [show List.enum (batches.map tr) = List.enumFrom 0 (batches.map tr)
    from rfl]
  rw [enumFrom_map_snd]

/-- C3 witness: three batches completing in reverse order are still
reassembled in original order. -/
theorem translateTexts_order_preserved_witness :
    reassembleResults [(2, ["T-Hi"]), (1, ["T-World"]), (0, ["T-Hello"])] =
      ((([["Hello"], ["World"], ["Hi"]]).map fun b =>
        b.map fun s => "T-" ++ s)).flatten :=
  translateTexts_order_preserved [["Hello"], ["World"], ["Hi"]]
    (fun b => b.map fun s => "T-" ++ s)
    [(2, ["T-Hi"]), (1, ["T-World"]), (0, ["T-Hello"])]
    (by decide)

/-! ## Per-batch error handling of `translateTexts`

Embedding of the retry-free failure policy of
`src/services/translationService.ts`, lines 193-204: a batch is attempted
once; the catch substitutes `batch.map(() => '')`. -/

/-- The outcome the provider would give for one attempt at a batch: a
transport failure of `openai.chat.completions.create`, a response with no
message content, or response content (already cleaned, together with its
`JSON.parse` outcome). -/
inductive ProviderOutcome where
  | transportError
  | emptyContent
  | content (cleanedContent : String) (parsed : Option Json)

/-- Model of `translateBatch(batch, systemPrompt, model)` from
`src/services/translationService.ts`, lines 461-516, on a cache miss: one
provider call; a transport error or a response without content rethrows,
and any received content is handed to `processResponseContent`, which
never throws. -/
def translateBatch (outcome : ProviderOutcome) (batch : List String) :
    Except Unit (List Json) :=
  match outcome with
  | ProviderOutcome.transportError => Except.error ()
  | ProviderOutcome.emptyContent => Except.error ()
  | ProviderOutcome.content c p =>
      Except.ok (processResponseContent c p batch)

/-- The per-batch handler inside `translateTexts`
(`src/services/translationService.ts`, lines 193-204): one call to
`translateBatch`; on error the catch returns `batch.map(() => '')`.
`attempts` gives the outcome the provider would return on each successive
attempt (the code only ever consults attempt `0`); the second component
counts the provider calls made for this batch. -/
def translateTextsBatchHandler (attempts : Nat → ProviderOutcome)
    (batch : List String) : List Json × Nat :=
  match translateBatch (attempts 0) batch with
  | Except.ok translations => (translations, 1)
  | Except.error _ => (batch.map fun _ => Json.str "", 1)

/-- A provider that fails on the first attempt at a batch and would
succeed on every later attempt. -/
def failThenSucceed : Nat → ProviderOutcome
  | 0 => ProviderOutcome.transportError
  | _ + 1 =>
      ProviderOutcome.content
        "\x7b\"translations\":[\"Bonjour\",\"Monde\"]\x7d"
        (some (Json.obj [("translations",
          Json.arr [Json.str "Bonjour", Json.str "Monde"])]))

/-- C5 counterexample: with a provider that fails on the first attempt
and would succeed on any retry, the per-batch handler of `translateTexts`
makes exactly one provider call and immediately substitutes empty
strings; it never reaches the successful second attempt, so failed
batches are not retried up to a bound of 3, and no strict-mode option
aborts instead. -/
theorem translateTexts_no_retry_counterexample :
    translateTextsBatchHandler failThenSucceed ["Hello", "World"] =
      ([Json.str "", Json.str ""], 1) ∧
    ¬ (translateTextsBatchHandler failThenSucceed ["Hello", "World"]).1 =
      [Json.str "Bonjour", Json.str "Monde"] := by
  refine ⟨rfl, ?_⟩
  intro hcontra
  rw [show (translateTextsBatchHandler failThenSucceed
      ["Hello", "World"]).1 = [Json.str "", Json.str ""] from rfl] at hcontra
  injection hcontra with h1 _
  injection h1 with h1
  exact absurd h1 (by decide)

/-- C5 (amended): when the provider call or validation fails for a batch,
`translateTexts` does not retry it: every batch is attempted exactly
once, and when that single attempt fails the orchestrator substitutes
empty strings for the batch's units and continues — unconditionally
lenient, with no delay and no strict/lenient configuration option. -/
theorem translateTexts_single_attempt (attempts : Nat → ProviderOutcome)
    (batch : List String) :
    (translateTextsBatchHandler attempts batch).2 = 1 ∧
    (∀ e, translateBatch (attempts 0) batch = Except.error e →
      (translateTextsBatchHandler attempts batch).1 =
        batch.map fun _ => Json.str "") := by
  constructor
  · unfold translateTextsBatchHandler
    split <;> rfl
  · intro e h
    unfold translateTextsBatchHandler
    rw [h]

/-- C5 amended-claim witness: a transport failure on a one-element batch
uses one provider call and yields one empty string. -/
theorem translateTexts_single_attempt_witness :
    (translateTextsBatchHandler (fun _ => ProviderOutcome.transportError)
      ["Hello"]).2 = 1 ∧
    (translateTextsBatchHandler (fun _ => ProviderOutcome.transportError)
      ["Hello"]).1 = (["Hello"] : List String).map fun _ => Json.str "" :=
  ⟨(translateTexts_single_attempt
      (fun _ => ProviderOutcome.transportError) ["Hello"]).1,
   (translateTexts_single_attempt
      (fun _ => ProviderOutcome.transportError) ["Hello"]).2 () rfl⟩

/-! ## Glossary merge

Embedding of the glossary accumulation of `processSubtitles`
(`src/unnamed/part_005`, lines 94-106): each extraction result is folded
in with the object spread `glossary = { ...glossary, ...result }`. -/

/-- The value an existing glossary entry has after the spread
`{ ...existing, ...incoming }`: the incoming value when `incoming` also
has the entry's key, the existing value otherwise. -/
def spreadUpdateEntry (incoming : List (String × String))
    (e : String × String) : String × String :=
  match incoming.find? fun i => i.1 == e.1 with
  | some i => (e.1, i.2)
  | none => e

/-- JavaScript object spread `{ ...existing, ...incoming }` as used for
the glossary merge: existing keys keep their position but take the
incoming value when present in `incoming`; keys found only in `incoming`
are appended in order. -/
def jsSpreadMerge (existing incoming : List (String × String)) :
    List (String × String) :=
  existing.map (spreadUpdateEntry incoming) ++
    incoming.filter fun i => !(existing.any fun e => e.1 == i.1)

/-- JavaScript property lookup on a glossary object. -/
def glossaryLookup (glossary : List (String × String)) (key : String) :
    Option String :=
  (glossary.find? fun e => e.1 == key).map (·.2)

theorem spreadUpdateEntry_fst (incoming : List (String × String))
    (e : String × String) : (spreadUpdateEntry incoming e).1 = e.1 := by
  unfold spreadUpdateEntry
  split <;> rfl

theorem find?_map_spreadUpdate (incoming : List (String × String))
    (key : String) :
    ∀ existing : List (String × String),
      (existing.map (spreadUpdateEntry incoming)).find?
          (fun x => x.1 == key) =
        (existing.find? fun e => e.1 == key).map
          (spreadUpdateEntry incoming) := by
  intro existing
  induction existing with
  | nil => rfl
  | cons e es ih =>
      simp only [List.map_cons, List.find?]
      rw [spreadUpdateEntry_fst incoming e]
      cases hp : (e.1 == key) with
      | true => simp
      | false => simpa using ih

theorem find?_filter_not_in_existing (existing : List (String × String))
    (key : String) (entry : String × String)
    (hex : ∀ x ∈ existing, (x.1 == key) = false) :
    ∀ incoming : List (String × String),
      incoming.find? (fun i => i.1 == key) = some entry →
      (incoming.filter fun i => !(existing.any fun e => e.1 == i.1)).find?
          (fun i => i.1 == key) = some entry := by
  intro incoming
  induction incoming with
  | nil => intro h; simp at h
  | cons i is ih =>
      intro h
      simp only [List.find?] at h
      cases hp : (i.1 == key) with
      | true =>
          rw [hp] at h
          simp only [Option.some.injEq] at h
          subst h
          have hkeep : (existing.any fun e => e.1 == i.1) = false := by
            rw [List.any_eq_false]
            intro x hx
            have hkey : i.1 = key := by simpa using hp
            rw [hkey]
            simpa using hex x hx
          simp only [List.filter_cons, hkeep, Bool.not_false, if_pos]
          simp [List.find?, hp]
      | false =>
          rw [hp] at h
          have := ih h
          simp only [List.filter_cons]
          cases hq : (!(existing.any fun e => e.1 == i.1)) with
          | true =>
              simp only [if_pos rfl]
              simp only [List.find?, hp]
              exact this
          | false => simpa using this

/-- C6 counterexample: merging the caller-supplied seed glossary
`{A: "seed"}` with the extracted `{A: "new"}` through the object spread
of `processSubtitles` yields `{A: "new"}`: the incoming extraction
overwrites the seed entry, so seed entries are not preserved verbatim. -/
theorem glossary_seed_overwritten_counterexample :
    glossaryLookup (jsSpreadMerge [("A", "seed")] [("A", "new")]) "A" =
      some "new" ∧
    ¬ glossaryLookup (jsSpreadMerge [("A", "seed")] [("A", "new")]) "A" =
      some "seed" := by
  refine ⟨rfl, ?_⟩
  intro hcontra
  rw [show glossaryLookup (jsSpreadMerge [("A", "seed")] [("A", "new")])
      "A" = some "new" from rfl] at hcontra
  injection hcontra with hcontra
  exact absurd hcontra (by decide)

/-- C6 (amended): the glossary merge is last-write-wins for every key,
seed-supplied or not: any key present in the incoming extraction result
carries the incoming value in the merged glossary, overwriting a seed
entry of the same key; preservation of seed entries is only requested of
the provider through the extraction prompt, not enforced by the merge. -/
theorem glossary_merge_last_write_wins
    (existing incoming : List (String × String)) (key v : String)
    (h : glossaryLookup incoming key = some v) :
    glossaryLookup (jsSpreadMerge existing incoming) key = some v := by
  obtain ⟨entry, hfind, hv⟩ : ∃ en,
      incoming.find? (fun i => i.1 == key) = some en ∧ en.2 = v := by
    unfold glossaryLookup at h
    cases hf : incoming.find? fun i => i.1 == key with
    | none => rw [hf] at h; simp at h
    | some en =>
        rw [hf] at h
        simp only [Option.map_some'] at h
        exact ⟨en, rfl, by injection h⟩
  unfold glossaryLookup jsSpreadMerge
  rw [List.find?_append, find?_map_spreadUpdate]
  cases hf0 : existing.find? fun e => e.1 == key with
  | some e0 =>
      have he0 : e0.1 = key := by
        have := List.find?_some hf0
        simpa using this
      simp only [Option.map_some', Option.or_some]
      unfold spreadUpdateEntry
      rw [he0, hfind]
      simp [hv]
  | none =>
      have hex : ∀ x ∈ existing, (x.1 == key) = false :=
        fun x hx => by simpa using List.find?_eq_none.mp hf0 x hx
      rw [find?_filter_not_in_existing existing key entry hex incoming hfind]
      simp [hv]

/-- C6 amended-claim witness: an incoming entry for key `"A"` wins over
the seed entry in a concrete merge. -/
theorem glossary_merge_last_write_wins_witness :
    glossaryLookup (jsSpreadMerge [("A", "seed"), ("B", "b")]
      [("A", "new"), ("C", "c")]) "A" = some "new" :=
  glossary_merge_last_write_wins [("A", "seed"), ("B", "b")]
    [("A", "new"), ("C", "c")] "A" "new" rfl

/-! ## Unit-level translation cache

Embedding of the per-unit cache of `src/unnamed/part_012`
(`CacheService.generateKey` / `get` / `set`) and the cache partition of
`translateTexts` in `src/unnamed/part_007` (lines 333-413), specialised
to a single-text job.  The MD5 digest of the key string is a
deterministic (and collision-free, for the purposes of this model)
function of that string, so the key is modelled by the key string
itself; the cache directory is modelled as an association list from key
to stored file contents, newest write first. -/

namespace UnitCache

/-- Model of `generateKey(text, targetLanguage, sourceLanguage, model)`
(`src/unnamed/part_012`, lines 63-74): the canonical string
`text|sourceLanguage|targetLanguage|model` (absent languages and model
become the empty string) whose MD5 hex digest names the cache file. -/
def generateKey (text targetLanguage : String)
    (sourceLanguage model : Option String) : String :=
  text ++ "|" ++ sourceLanguage.getD "" ++ "|" ++ targetLanguage ++ "|" ++
    model.getD ""

/-- The cache service state: the enabled flag and the cache files. -/
structure CacheState where
  enabled : Bool
  store : List (String × String)

/-- Model of `CacheService.get` (`src/unnamed/part_012`, lines 93-117): `null`
when disabled or the file is missing, otherwise the file contents. -/
def get (st : CacheState) (text targetLanguage : String)
    (sourceLanguage model : Option String) : Option String :=
  if st.enabled then
    (st.store.find? fun e =>
      e.1 == generateKey text targetLanguage sourceLanguage model).map (·.2)
  else none

/-- Model of `CacheService.set` (`src/unnamed/part_012`, lines 127-148): when
enabled, write the translation under the derived key. -/
def set (st : CacheState) (text translation targetLanguage : String)
    (sourceLanguage model : Option String) : CacheState :=
  if st.enabled then
    { st with store :=
        (generateKey text targetLanguage sourceLanguage model,
          translation) :: st.store }
  else st

end UnitCache

/-- The unit-level cache partition of `translateTexts`
(`src/unnamed/part_007`, lines 333-413) specialised to a single-text job:
the cached translation is used only when it is JS-truthy
(`if (cachedTranslation)` — a non-null, non-empty string); otherwise the
provider is called once, the result is stored when the cache is enabled,
and the result is returned.  The last component counts provider calls. -/
def translateUnitCached (st : UnitCache.CacheState) (provider : String)
    (text targetLanguage : String) (sourceLanguage model : Option String) :
    String × UnitCache.CacheState × Nat :=
  let cached := UnitCache.get st text targetLanguage sourceLanguage model
  match cached with
  | some c =>
      if !c.isEmpty then (c, st, 0)
      else
        (provider,
         if st.enabled then
           UnitCache.set st text provider targetLanguage sourceLanguage model
         else st, 1)
  | none =>
      (provider,
       if st.enabled then
         UnitCache.set st text provider targetLanguage sourceLanguage model
       else st, 1)

/-- C8 counterexample: with the cache enabled and a provider whose
translation for `"Hello"` is the empty string, translating the same
`(text, sourceLanguage, targetLanguage, model)` tuple twice issues two
provider calls, not at most one: the empty translation written by the
first job is read back but is falsy in `if (cachedTranslation)`, so the
second job calls the provider again. -/
theorem cache_idempotence_counterexample :
    translateUnitCached ⟨true, []⟩ "" "Hello" "chinese" (some "english")
        (some "gpt-4o") =
      ("", ⟨true, [("Hello|english|chinese|gpt-4o", "")]⟩, 1) ∧
    (translateUnitCached ⟨true, [("Hello|english|chinese|gpt-4o", "")]⟩
        "" "Hello" "chinese" (some "english") (some "gpt-4o")).2.2 = 1 :=
  ⟨rfl, rfl⟩

/-- C8 (amended): with the cache enabled and a provider translation that
is a non-empty string, translating the same
`(text, sourceLanguage, targetLanguage, model)` tuple twice issues at
most one provider call in total: the key derivation is a deterministic
function of the tuple and the second job is served from the entry
written by the first (an empty translation, being JS-falsy, is the one
exception and forces a second call). -/
theorem cache_idempotence (st : UnitCache.CacheState) (provider : String)
    (text targetLanguage : String) (sourceLanguage model : Option String)
    (henabled : st.enabled = true) (hprov : provider.isEmpty = false) :
    (translateUnitCached st provider text targetLanguage sourceLanguage
        model).2.2 +
      (translateUnitCached
        (translateUnitCached st provider text targetLanguage sourceLanguage
          model).2.1
        provider text targetLanguage sourceLanguage model).2.2 ≤ 1 ∧
    (translateUnitCached
      (translateUnitCached st provider text targetLanguage sourceLanguage
        model).2.1
      provider text targetLanguage sourceLanguage model).1 =
    (translateUnitCached st provider text targetLanguage sourceLanguage
      model).1 := by
  cases hget : UnitCache.get st text targetLanguage sourceLanguage model with
  | some c =>
      cases hc : c.isEmpty with
      | false =>
          have h1 : translateUnitCached st provider text targetLanguage
              sourceLanguage model = (c, st, 0) := by
            simp only [translateUnitCached]
            rw [hget]
            simp [hc]
          rw [h1]
          dsimp only
          rw [h1]
          simp
      | true =>
          have h1 : translateUnitCached st provider text targetLanguage
              sourceLanguage model =
              (provider, UnitCache.set st text provider targetLanguage
                sourceLanguage model, 1) := by
            simp only [translateUnitCached]
            rw [hget]
            simp [hc, henabled]
          have hget2 : UnitCache.get
              (UnitCache.set st text provider targetLanguage sourceLanguage
                model) text targetLanguage sourceLanguage model =
              some provider := by
            simp [UnitCache.get, UnitCache.set, henabled]
          have h2 : translateUnitCached
              (UnitCache.set st text provider targetLanguage sourceLanguage
                model) provider text targetLanguage sourceLanguage model =
              (provider, UnitCache.set st text provider targetLanguage
                sourceLanguage model, 0) := by
            simp only [translateUnitCached]
            rw [hget2]
            simp [hprov]
          rw [h1]
          dsimp only
          rw [h2]
          simp
  | none =>
      have h1 : translateUnitCached st provider text targetLanguage
          sourceLanguage model =
          (provider, UnitCache.set st text provider targetLanguage
            sourceLanguage model, 1) := by
        simp only [translateUnitCached]
        rw [hget]
        simp [henabled]
      have hget2 : UnitCache.get
          (UnitCache.set st text provider targetLanguage sourceLanguage
            model) text targetLanguage sourceLanguage model =
          some provider := by
        simp [UnitCache.get, UnitCache.set, henabled]
      have h2 : translateUnitCached
          (UnitCache.set st text provider targetLanguage sourceLanguage
            model) provider text targetLanguage sourceLanguage model =
          (provider, UnitCache.set st text provider targetLanguage
            sourceLanguage model, 0) := by
        simp only [translateUnitCached]
        rw [hget2]
        simp [hprov]
      rw [h1]
      dsimp only
      rw [h2]
      simp

/-- C8 amended-claim witness: starting from an empty enabled cache with
provider translation `"Bonjour"`, the two jobs make one provider call in
total and agree on the result. -/
theorem cache_idempotence_witness :
    (translateUnitCached ⟨true, []⟩ "Bonjour" "Hello" "chinese"
        (some "english") (some "gpt-4o")).2.2 +
      (translateUnitCached
        (translateUnitCached ⟨true, []⟩ "Bonjour" "Hello" "chinese"
          (some "english") (some "gpt-4o")).2.1
        "Bonjour" "Hello" "chinese" (some "english") (some "gpt-4o")).2.2
      ≤ 1 ∧
    (translateUnitCached
      (translateUnitCached ⟨true, []⟩ "Bonjour" "Hello" "chinese"
        (some "english") (some "gpt-4o")).2.1
      "Bonjour" "Hello" "chinese" (some "english") (some "gpt-4o")).1 =
    (translateUnitCached ⟨true, []⟩ "Bonjour" "Hello" "chinese"
      (some "english") (some "gpt-4o")).1 :=
  cache_idempotence ⟨true, []⟩ "Bonjour" "Hello" "chinese"
    (some "english") (some "gpt-4o") rfl rfl

/-! ## Request-level API cache

Embedding of `src/services/cacheService.ts`: every disk access sits in a
`try`/`catch` whose handler logs and falls through, so storage failures
are absorbed.  The disk is modelled explicitly: flags say whether the
cache directory exists and whether `mkdirSync`, `readFileSync` or
`writeFileSync` throw. -/

namespace ApiCache

/-- The local-disk environment seen by `cacheService`. -/
structure FileSys where
  dirExists : Bool
  mkdirFails : Bool
  readFails : Bool
  writeFails : Bool
  files : List (String × String)

/-- The cache service fields (`enabled`, `cacheDir`). -/
structure ServiceState where
  enabled : Bool
  cacheDir : String

/-- Model of `ensureCacheDirExists` (`src/services/cacheService.ts`, lines 39-53):
when the directory is missing, try `mkdirSync`; on failure the error is
caught and the service disables itself (`this.enabled = false`); the
method never rethrows. -/
def ensureCacheDirExists (fs : FileSys) (st : ServiceState) :
    FileSys × ServiceState :=
  if !fs.dirExists then
    if fs.mkdirFails then (fs, { st with enabled := false })
    else ({ fs with dirExists := true }, st)
  else (fs, st)

/-- Model of `generateApiKey(requestParams)` (lines 60-67): the MD5 hex digest of
the canonically serialized request parameters — a deterministic function
of the serialization, modelled by the serialization itself. -/
def generateApiKey (requestParams : String) : String :=
  requestParams

/-- Model of `getApiCacheFilePath(key)` (lines 74-76). -/
def getApiCacheFilePath (st : ServiceState) (key : String) : String :=
  st.cacheDir ++ "/api_" ++ key ++ ".json"

/-- Model of `getApiResponse(requestParams)` (lines 83-103): `null` when the cache
is disabled or the file is missing; a failing read is caught and also
yields `null`; the method never throws. -/
def getApiResponse (fs : FileSys) (st : ServiceState)
    (requestParams : String) : Option String :=
  if !st.enabled then none
  else
    match fs.files.find? fun f =>
        f.1 == getApiCacheFilePath st (generateApiKey requestParams) with
    | some f => if fs.readFails then none else some f.2
    | none => none

/-- Model of `setApiResponse(requestParams, response)` (lines 110-125): a no-op
when the cache is disabled; a failing write is caught and leaves the
disk unchanged; the method never throws. -/
def setApiResponse (fs : FileSys) (st : ServiceState)
    (requestParams response : String) : FileSys :=
  if !st.enabled then fs
  else if fs.writeFails then fs
  else
    { fs with files :=
        (getApiCacheFilePath st (generateApiKey requestParams), response) ::
          fs.files }

end ApiCache

/-- C9: local cache storage failures are absorbed and never fatal: a
failed directory creation disables the cache, after which every lookup
returns absent and every store is a no-op on disk (the job continues
uncached); a failed cache-file read is treated as an absent entry; a
failed cache-file write leaves the disk unchanged; and each operation
returns a plain value in every case rather than propagating the storage
error. -/
theorem cache_storage_errors_absorbed (fs : ApiCache.FileSys)
    (st : ApiCache.ServiceState) (params response : String) :
    (fs.mkdirFails = true → fs.dirExists = false →
      ((ApiCache.ensureCacheDirExists fs st).2.enabled = false ∧
       (∀ fs2 p, ApiCache.getApiResponse fs2
          (ApiCache.ensureCacheDirExists fs st).2 p = none) ∧
       (∀ fs2 p r, ApiCache.setApiResponse fs2
          (ApiCache.ensureCacheDirExists fs st).2 p r = fs2))) ∧
    (fs.readFails = true → ApiCache.getApiResponse fs st params = none) ∧
    (fs.writeFails = true →
      ApiCache.setApiResponse fs st params response = fs) := by
  refine ⟨?_, ?_, ?_⟩
  · intro hmk hdir
    have hdisabled : (ApiCache.ensureCacheDirExists fs st).2.enabled =
        false := by
      unfold ApiCache.ensureCacheDirExists
      simp [hmk, hdir]
    refine ⟨hdisabled, ?_, ?_⟩
    · intro fs2 p
      unfold ApiCache.getApiResponse
      rw [hdisabled]
      rfl
    · intro fs2 p r
      unfold ApiCache.setApiResponse
      rw [hdisabled]
      rfl
  · intro hread
    unfold ApiCache.getApiResponse
    rw [hread]
    split_ifs
    all_goals first
      | rfl
      | (split <;> rfl)
      | simp_all
  · intro hwrite
    unfold ApiCache.setApiResponse
    rw [hwrite]
    split_ifs
    all_goals first
      | rfl
      | simp_all

/-- C9 witness: a disk where the cache directory cannot be created and
reads and writes fail; every operation degrades as the theorem states. -/
theorem cache_storage_errors_absorbed_witness :
    ((ApiCache.ensureCacheDirExists ⟨false, true, true, true, []⟩
        ⟨true, "d"⟩).2.enabled = false ∧
      (∀ fs2 p, ApiCache.getApiResponse fs2
        (ApiCache.ensureCacheDirExists ⟨false, true, true, true, []⟩
          ⟨true, "d"⟩).2 p = none) ∧
      (∀ fs2 p r, ApiCache.setApiResponse fs2
        (ApiCache.ensureCacheDirExists ⟨false, true, true, true, []⟩
          ⟨true, "d"⟩).2 p r = fs2)) ∧
    ApiCache.getApiResponse ⟨false, true, true, true, []⟩ ⟨true, "d"⟩
      "req" = none ∧
    ApiCache.setApiResponse ⟨false, true, true, true, []⟩ ⟨true, "d"⟩
      "req" "resp" = ⟨false, true, true, true, []⟩ :=
  ⟨(cache_storage_errors_absorbed ⟨false, true, true, true, []⟩
      ⟨true, "d"⟩ "req" "resp").1 rfl rfl,
   (cache_storage_errors_absorbed ⟨false, true, true, true, []⟩
      ⟨true, "d"⟩ "req" "resp").2.1 rfl,
   (cache_storage_errors_absorbed ⟨false, true, true, true, []⟩
      ⟨true, "d"⟩ "req" "resp").2.2 rfl⟩

end SrtTranslator
